import Mathlib

/-!
Shallow embedding of the Apex-Timer backend storage layer
(`server/storage.ts`, `server/routes.ts`, `shared/schema.ts`).

Modelling conventions:
* A JavaScript `Date` is a calendar day number (days since an arbitrary
  epoch, in the process time zone, which the source treats as internally
  consistent) together with the milliseconds elapsed inside that day.
  `setHours(0,0,0,0)` becomes `truncToMidnight` (zeroing the intra-day
  part); `setDate(getDate() - 1)` on a date becomes `prevDay`;
  `getTime()` is the linearisation used by the source's comparisons.
* JavaScript numbers appearing in the storage layer are integers here.
* A nullable column is an `Option`; a field that can additionally be
  missing from a record altogether (`undefined`) gets one more `Option`
  layer, with `none` meaning "field absent".
* A `Partial<Insert...>` update object becomes a structure of `Option`
  fields (`none` = field not supplied); the JS spread merge
  `{...record, ...updateData}` becomes a field-wise `Option.getD`.
* `Map<number, T>` becomes an association list `List (Int × Int → ...)`
  with `mapLookup`/`mapSet`; a JSON object `Record<string, number>`
  becomes `List (String × Int)` with `tbcGet`/`tbcSet` (insertion-order
  preserving, as JS object spread updates are).
* `MemStorage`'s singleton instances (`timerSettingsInstance`,
  `studyStatsInstance`) are `Option` state threaded explicitly; methods
  take the state and return the new value.
* `DbStorage`'s singleton `study_stats` row is likewise an
  `Option StudyStats`; an insert into the fresh table is modelled with
  the serial id 1.
-/

structure JsDate where
  day : Int
  ms : Int
deriving DecidableEq

/-- Date.prototype.getTime, with one day = 86400000 ms. -/
def JsDate.getTime (d : JsDate) : Int := d.day * 86400000 + d.ms

/-- Model of `d.setHours(0, 0, 0, 0)`: truncate to local midnight. -/
def truncToMidnight (d : JsDate) : JsDate := { day := d.day, ms := 0 }

/-- Model of `d.setDate(d.getDate() - 1)`: the same time one day earlier. -/
def prevDay (d : JsDate) : JsDate := { day := d.day - 1, ms := d.ms }

/-- Lookup in the `timeByCategory` JSON object: `tbc[category]`, absent key gives 0
(the source reads `timeByCategory[category] || 0`). -/
def tbcGet : List (String × Int) → String → Int
  | [], _ => 0
  | (k, v) :: rest, c => if k = c then v else tbcGet rest c

/-- JS object spread update `{...tbc, [category]: v}`: replace the key in place
if present, append it otherwise. -/
def tbcSet : List (String × Int) → String → Int → List (String × Int)
  | [], c, v => [(c, v)]
  | (k, w) :: rest, c, v => if k = c then (c, v) :: rest else (k, w) :: tbcSet rest c v

/-- The `study_stats` row type (`shared/schema.ts`, `studyStats` table).
`timeByCategory` is a nullable JSON column, hence the outer `Option`. -/
structure StudyStats where
  id : Int
  userId : Option Int
  totalStudyTime : Int
  dailyGoal : Int
  weeklyGoal : Int
  streakDays : Int
  lastStudyDate : Option JsDate
  timeByCategory : Option (List (String × Int))
deriving DecidableEq

/-- Reading of a stats record's category ledger as a total mapping
(absent column or absent key both give 0). -/
def statsCat (s : StudyStats) (c : String) : Int := tbcGet (s.timeByCategory.getD []) c

/-- Partial update object `Partial<InsertStudyStats>` (the insert schema picks
every column except `id`). -/
structure StudyStatsPatch where
  userId : Option (Option Int)
  totalStudyTime : Option Int
  dailyGoal : Option Int
  weeklyGoal : Option Int
  streakDays : Option Int
  lastStudyDate : Option (Option JsDate)
  timeByCategory : Option (Option (List (String × Int)))
deriving DecidableEq

def emptyStudyStatsPatch : StudyStatsPatch :=
  { userId := none, totalStudyTime := none, dailyGoal := none, weeklyGoal := none,
    streakDays := none, lastStudyDate := none, timeByCategory := none }

/-- JS spread merge `{...stats, ...patch}` for study stats (`id` is not in the
insert schema, so it is never overwritten). -/
def mergeStudyStats (s : StudyStats) (p : StudyStatsPatch) : StudyStats :=
  { id := s.id
    userId := p.userId.getD s.userId
    totalStudyTime := p.totalStudyTime.getD s.totalStudyTime
    dailyGoal := p.dailyGoal.getD s.dailyGoal
    weeklyGoal := p.weeklyGoal.getD s.weeklyGoal
    streakDays := p.streakDays.getD s.streakDays
    lastStudyDate := p.lastStudyDate.getD s.lastStudyDate
    timeByCategory := p.timeByCategory.getD s.timeByCategory }

/-- The default study stats literal. The identical object literal appears twice
in `MemStorage`: as `studyStatsInstance` in the constructor and as
`defaultStats` inside `updateStudyStats`. -/
def memDefaultStudyStats : StudyStats :=
  { id := 1
    userId := none
    totalStudyTime := 0
    dailyGoal := 7200
    weeklyGoal := 36000
    streakDays := 0
    lastStudyDate := none
    timeByCategory := some [] }

/-- MemStorage.updateStudyStats: lazy create-with-defaults-then-merge if the
singleton is absent, else merge in place; the result is also the new state. -/
def memUpdateStudyStats (inst : Option StudyStats) (p : StudyStatsPatch) : StudyStats :=
  match inst with
  | none => mergeStudyStats memDefaultStudyStats p
  | some s => mergeStudyStats s p

/-- MemStorage.increaseStudyTime. `inst` is the current `studyStatsInstance`,
`now` is the value of `new Date()` during the call. The `|| 0` guards on
`streakDays` and `totalStudyTime` are the identity on integer columns and are
dropped; `category` truthiness (`if (category)`) is "some non-empty string". -/
def memIncreaseStudyTime (inst : Option StudyStats) (seconds : Int) (category : Option String)
    (now : JsDate) : StudyStats :=
  let s := match inst with
    | none => memUpdateStudyStats none emptyStudyStatsPatch
    | some s0 => s0
  let today := truncToMidnight now
  let yesterday := prevDay today
  let streakDays :=
    match s.lastStudyDate with
    | some last =>
      let lastStudyDay := truncToMidnight last
      if lastStudyDay.getTime = yesterday.getTime then s.streakDays + 1
      else if lastStudyDay.getTime < yesterday.getTime then 1
      else s.streakDays
    | none => 1
  let tbc0 := s.timeByCategory.getD []
  let timeByCategory :=
    match category with
    | some c => if c ≠ "" then tbcSet tbc0 c (tbcGet tbc0 c + seconds) else tbc0
    | none => tbc0
  { s with
    totalStudyTime := s.totalStudyTime + seconds
    lastStudyDate := some now
    streakDays := streakDays
    timeByCategory := some timeByCategory }

/-- DbStorage.increaseStudyTime. The stats table holds at most the one
singleton row (`current`); an insert into the fresh table gets serial id 1.
Unlike `MemStorage`, the existing-row branch has no `else` for an absent
`lastStudyDate`: `streakDays` is then left as stored. -/
def dbIncreaseStudyTime (current : Option StudyStats) (seconds : Int) (category : Option String)
    (now : JsDate) : StudyStats :=
  match current with
  | none =>
    { id := 1
      userId := none
      totalStudyTime := seconds
      dailyGoal := 7200
      weeklyGoal := 36000
      streakDays := 1
      lastStudyDate := some now
      timeByCategory := some (match category with
        | some c => if c ≠ "" then [(c, seconds)] else []
        | none => []) }
  | some s =>
    let today := truncToMidnight now
    let yesterday := prevDay today
    let streakDays :=
      match s.lastStudyDate with
      | some last =>
        let lastStudyDay := truncToMidnight last
        if lastStudyDay.getTime = yesterday.getTime then s.streakDays + 1
        else if lastStudyDay.getTime < yesterday.getTime then 1
        else s.streakDays
      | none => s.streakDays
    let tbc0 := s.timeByCategory.getD []
    let timeByCategory :=
      match category with
      | some c => if c ≠ "" then tbcSet tbc0 c (tbcGet tbc0 c + seconds) else tbc0
      | none => tbc0
    { s with
      totalStudyTime := s.totalStudyTime + seconds
      lastStudyDate := some now
      streakDays := streakDays
      timeByCategory := some timeByCategory }

/-- One credited call: seconds, optional category, and the clock value. -/
structure StudyCall where
  seconds : Int
  category : Option String
  now : JsDate
deriving DecidableEq

/-- The `studyStatsInstance` state after a sequence of
`MemStorage.increaseStudyTime` calls, starting from the constructor state. -/
def memStatsRun (calls : List StudyCall) : Option StudyStats :=
  calls.foldl (fun st c => some (memIncreaseStudyTime st c.seconds c.category c.now))
    (some memDefaultStudyStats)

/-- The singleton `study_stats` row after a sequence of
`DbStorage.increaseStudyTime` calls, starting from an empty table. -/
def dbStatsRun (calls : List StudyCall) : Option StudyStats :=
  calls.foldl (fun st c => some (dbIncreaseStudyTime st c.seconds c.category c.now)) none

/-- Streak scenario, day D = day 10: first-ever call. -/
def c1Step1 : StudyStats := memIncreaseStudyTime (some memDefaultStudyStats) 100 none ⟨10, 3600⟩

/-- Streak scenario: second call the same day. -/
def c1Step2 : StudyStats := memIncreaseStudyTime (some c1Step1) 100 none ⟨10, 7200⟩

/-- Streak scenario: call on day D+1. -/
def c1Step3 : StudyStats := memIncreaseStudyTime (some c1Step2) 100 none ⟨11, 3600⟩

/-- Streak scenario: call on day D+3. -/
def c1Step4 : StudyStats := memIncreaseStudyTime (some c1Step3) 100 none ⟨13, 3600⟩

/-- C1: `MemStorage.increaseStudyTime` updates `streakDays` by cases on the
stored `lastStudyDate`: absent gives 1; truncated-equal to yesterday
increments; strictly before yesterday resets to 1; equal to today leaves it
unchanged. Concretely, from no credited study: day D gives 1, the same day
leaves 1 with `totalStudyTime` doubled, day D+1 gives 2, day D+3 resets to 1. -/
theorem memIncreaseStudyTime_streak_cases (s : StudyStats) (seconds : Int)
    (category : Option String) (now : JsDate) (hsec : 0 < seconds) :
    (s.lastStudyDate = none →
      (memIncreaseStudyTime (some s) seconds category now).streakDays = 1) ∧
    (∀ d, s.lastStudyDate = some d →
      truncToMidnight d = prevDay (truncToMidnight now) →
      (memIncreaseStudyTime (some s) seconds category now).streakDays = s.streakDays + 1) ∧
    (∀ d, s.lastStudyDate = some d →
      (truncToMidnight d).getTime < (prevDay (truncToMidnight now)).getTime →
      (memIncreaseStudyTime (some s) seconds category now).streakDays = 1) ∧
    (∀ d, s.lastStudyDate = some d →
      truncToMidnight d = truncToMidnight now →
      (memIncreaseStudyTime (some s) seconds category now).streakDays = s.streakDays) ∧
    (c1Step1.streakDays = 1 ∧ c1Step2.streakDays = 1 ∧ c1Step2.totalStudyTime = 200 ∧
      c1Step3.streakDays = 2 ∧ c1Step4.streakDays = 1) := by
  refine ⟨?_, ?_, ?_, ?_, ?_⟩
  · intro h
    simp [memIncreaseStudyTime, h]
  · intro d hd hday
    have hd' : d.day = now.day - 1 := by
      have := congrArg JsDate.day hday
      simpa [truncToMidnight, prevDay] using this
    simp only [memIncreaseStudyTime, hd]
    simp [truncToMidnight, prevDay, JsDate.getTime, hd']
  · intro d hd hlt
    have hd' : d.day < now.day - 1 := by
      simp only [truncToMidnight, prevDay, JsDate.getTime] at hlt
      omega
    simp only [memIncreaseStudyTime, hd]
    simp only [truncToMidnight, prevDay, JsDate.getTime]
    rw [if_neg (by omega), if_pos (by omega)]
  · intro d hd hday
    have hd' : d.day = now.day := by
      have := congrArg JsDate.day hday
      simpa [truncToMidnight] using this
    simp only [memIncreaseStudyTime, hd]
    simp only [truncToMidnight, prevDay, JsDate.getTime]
    rw [if_neg (by omega), if_neg (by omega)]
  · refine ⟨by decide, by decide, by decide, by decide, by decide⟩

/-- Witness for C1 at concrete inputs. -/
theorem memIncreaseStudyTime_streak_cases_witness :
    (0 : Int) < 100 ∧
    (memIncreaseStudyTime (some memDefaultStudyStats) 100 none ⟨10, 3600⟩).streakDays = 1 := by
  refine ⟨by decide, ?_⟩
  exact (memIncreaseStudyTime_streak_cases memDefaultStudyStats 100 none ⟨10, 3600⟩
    (by decide)).1 rfl

theorem memStep_streak_ge_one (st : Option StudyStats) (sec : Int) (cat : Option String)
    (now : JsDate) (h : ∀ s, st = some s → 1 ≤ s.streakDays ∨ s.lastStudyDate = none) :
    1 ≤ (memIncreaseStudyTime st sec cat now).streakDays := by
  cases st with
  | none =>
    simp [memIncreaseStudyTime, memUpdateStudyStats, mergeStudyStats, emptyStudyStatsPatch,
      memDefaultStudyStats]
  | some s =>
    rcases h s rfl with hs | hs
    · cases hld : s.lastStudyDate with
      | none => simp [memIncreaseStudyTime, hld]
      | some last =>
        simp only [memIncreaseStudyTime, hld]
        split
        · omega
        · split <;> omega
    · simp [memIncreaseStudyTime, hs]

theorem dbStep_streak_ge_one (st : Option StudyStats) (sec : Int) (cat : Option String)
    (now : JsDate) (h : ∀ s, st = some s → 1 ≤ s.streakDays) :
    1 ≤ (dbIncreaseStudyTime st sec cat now).streakDays := by
  cases st with
  | none => simp [dbIncreaseStudyTime]
  | some s =>
    have hs := h s rfl
    cases hld : s.lastStudyDate with
    | none => simp [dbIncreaseStudyTime, hld, hs]
    | some last =>
      simp only [dbIncreaseStudyTime, hld]
      split
      · omega
      · split <;> omega

/-- Generalised start state for a run of `MemStorage.increaseStudyTime` calls. -/
def memStatsRunFrom (st : Option StudyStats) (calls : List StudyCall) : Option StudyStats :=
  calls.foldl (fun st c => some (memIncreaseStudyTime st c.seconds c.category c.now)) st

/-- Generalised start state for a run of `DbStorage.increaseStudyTime` calls. -/
def dbStatsRunFrom (st : Option StudyStats) (calls : List StudyCall) : Option StudyStats :=
  calls.foldl (fun st c => some (dbIncreaseStudyTime st c.seconds c.category c.now)) st

theorem memRunFrom_streak_ge_one (calls : List StudyCall) (st : Option StudyStats)
    (h : ∀ s, st = some s → 1 ≤ s.streakDays ∨ s.lastStudyDate = none) (hne : calls ≠ [])
    (s : StudyStats) (hs : memStatsRunFrom st calls = some s) : 1 ≤ s.streakDays := by
  induction calls generalizing st with
  | nil => exact absurd rfl hne
  | cons c rest ih =>
    simp only [memStatsRunFrom, List.foldl_cons] at hs
    rcases eq_or_ne rest [] with hr | hr
    · subst hr
      simp only [List.foldl_nil, Option.some.injEq] at hs
      subst hs
      exact memStep_streak_ge_one st _ _ _ h
    · exact ih (some (memIncreaseStudyTime st c.seconds c.category c.now))
        (fun s' hs' => Or.inl (Option.some_inj.mp hs' ▸ memStep_streak_ge_one st _ _ _ h))
        hr hs

theorem dbRunFrom_streak_ge_one (calls : List StudyCall) (st : Option StudyStats)
    (h : ∀ s, st = some s → 1 ≤ s.streakDays) (hne : calls ≠ [])
    (s : StudyStats) (hs : dbStatsRunFrom st calls = some s) : 1 ≤ s.streakDays := by
  induction calls generalizing st with
  | nil => exact absurd rfl hne
  | cons c rest ih =>
    simp only [dbStatsRunFrom, List.foldl_cons] at hs
    rcases eq_or_ne rest [] with hr | hr
    · subst hr
      simp only [List.foldl_nil, Option.some.injEq] at hs
      subst hs
      exact dbStep_streak_ge_one st _ _ _ h
    · exact ih (some (dbIncreaseStudyTime st c.seconds c.category c.now))
        (fun s' hs' => Option.some_inj.mp hs' ▸ dbStep_streak_ge_one st _ _ _ h)
        hr hs

/-- C2: after any nonempty sequence of `increaseStudyTime` calls, in both
implementations, `streakDays` is at least 1 (never 0, never decremented below
1); a call on the same calendar day as the stored `lastStudyDate` leaves the
streak unchanged (so it is non-decreasing within a day); a gap of two or more
days resets it to exactly 1; and first use yields exactly 1. -/
theorem streakDays_invariant :
    (∀ calls : List StudyCall, calls ≠ [] →
      ∀ s, memStatsRun calls = some s → 1 ≤ s.streakDays) ∧
    (∀ calls : List StudyCall, calls ≠ [] →
      ∀ s, dbStatsRun calls = some s → 1 ≤ s.streakDays) ∧
    (∀ (s : StudyStats) (d : JsDate) (sec : Int) (cat : Option String) (now : JsDate),
      s.lastStudyDate = some d → d.day = now.day →
      (memIncreaseStudyTime (some s) sec cat now).streakDays = s.streakDays ∧
      (dbIncreaseStudyTime (some s) sec cat now).streakDays = s.streakDays) ∧
    (∀ (s : StudyStats) (d : JsDate) (sec : Int) (cat : Option String) (now : JsDate),
      s.lastStudyDate = some d → d.day < now.day - 1 →
      (memIncreaseStudyTime (some s) sec cat now).streakDays = 1 ∧
      (dbIncreaseStudyTime (some s) sec cat now).streakDays = 1) ∧
    (∀ (sec : Int) (cat : Option String) (now : JsDate),
      (memIncreaseStudyTime (some memDefaultStudyStats) sec cat now).streakDays = 1 ∧
      (dbIncreaseStudyTime none sec cat now).streakDays = 1) := by
  refine ⟨?_, ?_, ?_, ?_, ?_⟩
  · intro calls hne s hs
    exact memRunFrom_streak_ge_one calls (some memDefaultStudyStats)
      (fun s' hs' => Or.inr (by cases Option.some_inj.mp hs'; rfl)) hne s hs
  · intro calls hne s hs
    exact dbRunFrom_streak_ge_one calls none (fun s' hs' => by cases hs') hne s hs
  · intro s d sec cat now hd hday
    constructor
    · simp only [memIncreaseStudyTime, hd]
      simp only [truncToMidnight, prevDay, JsDate.getTime]
      rw [if_neg (by omega), if_neg (by omega)]
    · simp only [dbIncreaseStudyTime, hd]
      simp only [truncToMidnight, prevDay, JsDate.getTime]
      rw [if_neg (by omega), if_neg (by omega)]
  · intro s d sec cat now hd hlt
    constructor
    · simp only [memIncreaseStudyTime, hd]
      simp only [truncToMidnight, prevDay, JsDate.getTime]
      rw [if_neg (by omega), if_pos (by omega)]
    · simp only [dbIncreaseStudyTime, hd]
      simp only [truncToMidnight, prevDay, JsDate.getTime]
      rw [if_neg (by omega), if_pos (by omega)]
  · intro sec cat now
    exact ⟨by simp [memIncreaseStudyTime, memDefaultStudyStats], by simp [dbIncreaseStudyTime]⟩

/-- Witness for C2 at a concrete one-call run. -/
theorem streakDays_invariant_witness :
    1 ≤ (memIncreaseStudyTime (some memDefaultStudyStats) 100 none ⟨10, 0⟩).streakDays ∧
    1 ≤ (dbIncreaseStudyTime none 100 none ⟨10, 0⟩).streakDays :=
  ⟨streakDays_invariant.1 [⟨100, none, ⟨10, 0⟩⟩] (by simp) _ rfl,
   streakDays_invariant.2.1 [⟨100, none, ⟨10, 0⟩⟩] (by simp) _ rfl⟩

theorem tbcGet_tbcSet_self (l : List (String × Int)) (c : String) (v : Int) :
    tbcGet (tbcSet l c v) c = v := by
  induction l with
  | nil => simp [tbcSet, tbcGet]
  | cons kv rest ih =>
    obtain ⟨k, w⟩ := kv
    by_cases h : k = c <;> simp [tbcSet, tbcGet, h, ih]

theorem tbcGet_tbcSet_ne (l : List (String × Int)) (c k : String) (v : Int) (h : k ≠ c) :
    tbcGet (tbcSet l c v) k = tbcGet l k := by
  induction l with
  | nil => simp [tbcSet, tbcGet, h, Ne.symm h]
  | cons kv rest ih =>
    obtain ⟨k0, w⟩ := kv
    by_cases h0 : k0 = c
    · subst h0
      simp [tbcSet, tbcGet, h, Ne.symm h]
    · by_cases h1 : k0 = k <;> simp [tbcSet, tbcGet, h, Ne.symm h, h0, h1, ih]

/-- Category-accumulation scenario: `increaseStudyTime(50, "Math")` from fresh stats. -/
def c3Step1 : StudyStats :=
  memIncreaseStudyTime (some memDefaultStudyStats) 50 (some "Math") ⟨10, 0⟩

/-- Category-accumulation scenario: then `increaseStudyTime(30, "Math")`. -/
def c3Step2 : StudyStats := memIncreaseStudyTime (some c3Step1) 30 (some "Math") ⟨10, 100⟩

/-- Category-accumulation scenario: then `increaseStudyTime(20, "Physics")`. -/
def c3Step3 : StudyStats := memIncreaseStudyTime (some c3Step2) 20 (some "Physics") ⟨10, 200⟩

/-- C3: `MemStorage.increaseStudyTime` adds `seconds` to the given non-empty
category and leaves every other key unchanged; with an absent or empty
category the category ledger is unchanged; `totalStudyTime` always grows by
exactly `seconds`. The 50/30/20 scenario yields Math 80, Physics 20, total 100. -/
theorem memIncreaseStudyTime_category (s : StudyStats) (seconds : Int) (c : String)
    (now : JsDate) (hc : c ≠ "") :
    statsCat (memIncreaseStudyTime (some s) seconds (some c) now) c = statsCat s c + seconds ∧
    (∀ k, k ≠ c →
      statsCat (memIncreaseStudyTime (some s) seconds (some c) now) k = statsCat s k) ∧
    (∀ k, statsCat (memIncreaseStudyTime (some s) seconds none now) k = statsCat s k) ∧
    (∀ k, statsCat (memIncreaseStudyTime (some s) seconds (some "") now) k = statsCat s k) ∧
    (∀ cat : Option String,
      (memIncreaseStudyTime (some s) seconds cat now).totalStudyTime
        = s.totalStudyTime + seconds) ∧
    (statsCat c3Step3 "Math" = 80 ∧ statsCat c3Step3 "Physics" = 20 ∧
      c3Step3.totalStudyTime = 100 ∧
      c3Step3.timeByCategory = some [("Math", 80), ("Physics", 20)]) := by
  refine ⟨?_, ?_, ?_, ?_, ?_, ?_⟩
  · simp [memIncreaseStudyTime, statsCat, hc, tbcGet_tbcSet_self]
  · intro k hk
    simp [memIncreaseStudyTime, statsCat, hc, tbcGet_tbcSet_ne _ _ _ _ hk]
  · intro k
    simp [memIncreaseStudyTime, statsCat]
  · intro k
    simp [memIncreaseStudyTime, statsCat]
  · intro cat
    rfl
  · refine ⟨by decide, by decide, by decide, by decide⟩

/-- Witness for C3 at concrete inputs. -/
theorem memIncreaseStudyTime_category_witness :
    statsCat (memIncreaseStudyTime (some memDefaultStudyStats) 50 (some "Math") ⟨10, 0⟩) "Math"
      = statsCat memDefaultStudyStats "Math" + 50 :=
  (memIncreaseStudyTime_category memDefaultStudyStats 50 "Math" ⟨10, 0⟩ (by decide)).1

/-- A stored stats record with a streak but no `lastStudyDate`. -/
def orphanStreakStats : StudyStats :=
  { id := 1
    userId := none
    totalStudyTime := 0
    dailyGoal := 7200
    weeklyGoal := 36000
    streakDays := 5
    lastStudyDate := none
    timeByCategory := some [] }

/-- Counterexample for C5: on a stored record whose `lastStudyDate` is absent,
`MemStorage.increaseStudyTime` resets the streak to 1 while
`DbStorage.increaseStudyTime` keeps the stored value, so the two
implementations do not produce equal records. -/
theorem memDb_increase_disagree :
    (memIncreaseStudyTime (some orphanStreakStats) 100 none ⟨10, 0⟩).streakDays = 1 ∧
    (dbIncreaseStudyTime (some orphanStreakStats) 100 none ⟨10, 0⟩).streakDays = 5 ∧
    memIncreaseStudyTime (some orphanStreakStats) 100 none ⟨10, 0⟩ ≠
      dbIncreaseStudyTime (some orphanStreakStats) 100 none ⟨10, 0⟩ := by
  refine ⟨by decide, by decide, by decide⟩

/-- C5 (amended): the two implementations produce equal resulting records for
every call whenever either no record exists yet (a fresh database assigns the
same id 1 the memory store uses) or the stored record has a `lastStudyDate`;
they differ only in the record-exists-but-`lastStudyDate`-absent case shown in
the counterexample. -/
theorem memDb_increase_agree (inst : Option StudyStats) (seconds : Int)
    (category : Option String) (now : JsDate)
    (h : ∀ s, inst = some s → s.lastStudyDate ≠ none) :
    memIncreaseStudyTime inst seconds category now
      = dbIncreaseStudyTime inst seconds category now := by
  cases inst with
  | none =>
    cases category with
    | none =>
      simp [memIncreaseStudyTime, dbIncreaseStudyTime, memUpdateStudyStats, mergeStudyStats,
        emptyStudyStatsPatch, memDefaultStudyStats]
    | some c =>
      by_cases hc : c = "" <;>
        simp [memIncreaseStudyTime, dbIncreaseStudyTime, memUpdateStudyStats, mergeStudyStats,
          emptyStudyStatsPatch, memDefaultStudyStats, hc, tbcSet, tbcGet]
  | some s =>
    obtain ⟨d, hd⟩ := Option.ne_none_iff_exists'.mp (h s rfl)
    simp [memIncreaseStudyTime, dbIncreaseStudyTime, hd]

/-- Witness for C5 (amended) at a concrete input. -/
theorem memDb_increase_agree_witness :
    memIncreaseStudyTime none 100 (some "Math") ⟨10, 0⟩
      = dbIncreaseStudyTime none 100 (some "Math") ⟨10, 0⟩ :=
  memDb_increase_agree none 100 (some "Math") ⟨10, 0⟩ (fun _ hs => by cases hs)

/-- C9: in both implementations, `increaseStudyTime` on an existing record
changes at most `totalStudyTime`, `lastStudyDate`, `streakDays` and
`timeByCategory`: the fields `id`, `userId`, `dailyGoal` and `weeklyGoal`
are returned unchanged. -/
theorem increaseStudyTime_frame (s : StudyStats) (seconds : Int) (category : Option String)
    (now : JsDate) :
    (memIncreaseStudyTime (some s) seconds category now).id = s.id ∧
    (memIncreaseStudyTime (some s) seconds category now).userId = s.userId ∧
    (memIncreaseStudyTime (some s) seconds category now).dailyGoal = s.dailyGoal ∧
    (memIncreaseStudyTime (some s) seconds category now).weeklyGoal = s.weeklyGoal ∧
    (dbIncreaseStudyTime (some s) seconds category now).id = s.id ∧
    (dbIncreaseStudyTime (some s) seconds category now).userId = s.userId ∧
    (dbIncreaseStudyTime (some s) seconds category now).dailyGoal = s.dailyGoal ∧
    (dbIncreaseStudyTime (some s) seconds category now).weeklyGoal = s.weeklyGoal :=
  ⟨rfl, rfl, rfl, rfl, rfl, rfl, rfl, rfl⟩

/-- Lookup in a `Map<number, T>` modelled as an association list. -/
def mapLookup {α : Type} : List (Int × α) → Int → Option α
  | [], _ => none
  | (k, v) :: rest, i => if k = i then some v else mapLookup rest i

/-- In-place `map.set(id, value)` on the association list. -/
def mapSet {α : Type} : List (Int × α) → Int → α → List (Int × α)
  | [], i, v => [(i, v)]
  | (k, w) :: rest, i, v => if k = i then (i, v) :: rest else (k, w) :: mapSet rest i v

/-- The `tasks` row type (`shared/schema.ts`): `dueDate` is nullable,
`createdAt` is set at creation. -/
structure TodoTask where
  id : Int
  text : String
  completed : Bool
  dueDate : Option JsDate
  createdAt : JsDate
deriving DecidableEq

/-- Partial update object `Partial<InsertTask>` (the insert schema picks
`text`, `completed` and `dueDate` only). -/
structure TaskPatch where
  text : Option String
  completed : Option Bool
  dueDate : Option (Option JsDate)
deriving DecidableEq

def emptyTaskPatch : TaskPatch := { text := none, completed := none, dueDate := none }

/-- JS spread merge `{...task, ...updateData}` for tasks. -/
def mergeTask (t : TodoTask) (p : TaskPatch) : TodoTask :=
  { id := t.id
    text := p.text.getD t.text
    completed := p.completed.getD t.completed
    dueDate := p.dueDate.getD t.dueDate
    createdAt := t.createdAt }

/-- MemStorage.updateTask: returns `undefined` and leaves the map untouched on
a missing id, else stores and returns the merged record. -/
def updateTask (tasksMap : List (Int × TodoTask)) (id : Int) (updateData : TaskPatch) :
    Option TodoTask × List (Int × TodoTask) :=
  match mapLookup tasksMap id with
  | none => (none, tasksMap)
  | some task =>
    let updatedTask := mergeTask task updateData
    (some updatedTask, mapSet tasksMap id updatedTask)

/-- C7: `updateTask` on an id absent from the store returns "not found" and
leaves the store unchanged (no record is created); on a present id it returns
the stored record with exactly the supplied fields overwritten and every
unsupplied field (and the non-updatable `id` and `createdAt`) retaining its
prior value. -/
theorem updateTask_contract (tasksMap : List (Int × TodoTask)) (id : Int) (p : TaskPatch) :
    (mapLookup tasksMap id = none → updateTask tasksMap id p = (none, tasksMap)) ∧
    (∀ t, mapLookup tasksMap id = some t →
      (updateTask tasksMap id p).1 = some (mergeTask t p) ∧
      (mergeTask t p).id = t.id ∧
      (mergeTask t p).createdAt = t.createdAt ∧
      (∀ v, p.text = some v → (mergeTask t p).text = v) ∧
      (p.text = none → (mergeTask t p).text = t.text) ∧
      (∀ v, p.completed = some v → (mergeTask t p).completed = v) ∧
      (p.completed = none → (mergeTask t p).completed = t.completed) ∧
      (∀ v, p.dueDate = some v → (mergeTask t p).dueDate = v) ∧
      (p.dueDate = none → (mergeTask t p).dueDate = t.dueDate)) := by
  constructor
  · intro h
    simp [updateTask, h]
  · intro t h
    refine ⟨by simp [updateTask, h], rfl, rfl, ?_, ?_, ?_, ?_, ?_, ?_⟩ <;>
      first
        | (intro v hv; simp [mergeTask, hv])
        | (intro hv; simp [mergeTask, hv])

/-- Witness for C7: a missing id is rejected without creating a record. -/
theorem updateTask_contract_witness :
    updateTask [] 7 emptyTaskPatch = (none, []) :=
  (updateTask_contract [] 7 emptyTaskPatch).1 rfl

/-- The `study_sessions` row type (`shared/schema.ts`): `duration`, `tags`,
`endTime`, `notes` and `userId` are nullable. -/
structure StudySession where
  id : Int
  userId : Option Int
  startTime : JsDate
  endTime : Option JsDate
  duration : Option Int
  timerType : String
  tags : Option (List String)
  notes : Option String
  completed : Bool
deriving DecidableEq

/-- Partial update object `Partial<InsertStudySession>`. -/
structure StudySessionPatch where
  userId : Option (Option Int)
  startTime : Option JsDate
  endTime : Option (Option JsDate)
  duration : Option (Option Int)
  timerType : Option String
  tags : Option (Option (List String))
  notes : Option (Option String)
  completed : Option Bool
deriving DecidableEq

def emptyStudySessionPatch : StudySessionPatch :=
  { userId := none, startTime := none, endTime := none, duration := none,
    timerType := none, tags := none, notes := none, completed := none }

/-- JS spread merge `{...session, ...sessionData}` for study sessions. -/
def mergeStudySession (s : StudySession) (p : StudySessionPatch) : StudySession :=
  { id := s.id
    userId := p.userId.getD s.userId
    startTime := p.startTime.getD s.startTime
    endTime := p.endTime.getD s.endTime
    duration := p.duration.getD s.duration
    timerType := p.timerType.getD s.timerType
    tags := p.tags.getD s.tags
    notes := p.notes.getD s.notes
    completed := p.completed.getD s.completed }

/-- MemStorage.getStudySessionsByDateRange: keep the sessions whose
`startTime` lies between the bounds (inclusive, compared as timestamps) and
sort them newest-first by `startTime` (the comparator `b - a`). -/
def getStudySessionsByDateRange (sessions : List StudySession)
    (startDate endDate : JsDate) : List StudySession :=
  (sessions.filter (fun session =>
      decide (startDate.getTime ≤ session.startTime.getTime ∧
        session.startTime.getTime ≤ endDate.getTime))).mergeSort
    (fun a b => decide (b.startTime.getTime ≤ a.startTime.getTime))

/-- C8: the date-range query returns exactly the stored sessions whose
`startTime` satisfies `start ≤ startTime ≤ end` (both ends inclusive), sorted
newest-first by `startTime`; a reversed range returns the empty sequence. -/
theorem getStudySessionsByDateRange_contract (sessions : List StudySession)
    (startDate endDate : JsDate) :
    (∀ s, s ∈ getStudySessionsByDateRange sessions startDate endDate ↔
      s ∈ sessions ∧ startDate.getTime ≤ s.startTime.getTime ∧
        s.startTime.getTime ≤ endDate.getTime) ∧
    (getStudySessionsByDateRange sessions startDate endDate).Pairwise
      (fun a b => b.startTime.getTime ≤ a.startTime.getTime) ∧
    (endDate.getTime < startDate.getTime →
      getStudySessionsByDateRange sessions startDate endDate = []) := by
  refine ⟨?_, ?_, ?_⟩
  · intro s
    have hp := List.mergeSort_perm
      (sessions.filter (fun session =>
        decide (startDate.getTime ≤ session.startTime.getTime ∧
          session.startTime.getTime ≤ endDate.getTime)))
      (fun a b => decide (b.startTime.getTime ≤ a.startTime.getTime))
    rw [getStudySessionsByDateRange, hp.mem_iff, List.mem_filter]
    simp
  · have h := @List.sorted_mergeSort StudySession
      (fun a b => decide (b.startTime.getTime ≤ a.startTime.getTime))
      (fun a b c h1 h2 => by simp only [decide_eq_true_eq] at h1 h2 ⊢; omega)
      (fun a b => by simp only [Bool.or_eq_true, decide_eq_true_eq]; omega)
      (sessions.filter (fun session =>
        decide (startDate.getTime ≤ session.startTime.getTime ∧
          session.startTime.getTime ≤ endDate.getTime)))
    rw [getStudySessionsByDateRange]
    exact h.imp (fun hab => by simpa using hab)
  · intro hrev
    have hf : sessions.filter (fun session =>
        decide (startDate.getTime ≤ session.startTime.getTime ∧
          session.startTime.getTime ≤ endDate.getTime)) = [] := by
      rw [List.filter_eq_nil_iff]
      intro a _
      simp only [decide_eq_true_eq]
      omega
    rw [getStudySessionsByDateRange, hf, List.mergeSort_nil]

/-- Witness for C8 at a concrete store and range. -/
theorem getStudySessionsByDateRange_contract_witness :
    getStudySessionsByDateRange
      [{ id := 1, userId := none, startTime := ⟨5, 0⟩, endTime := none, duration := some 60,
         timerType := "pomodoro", tags := none, notes := none, completed := false }] ⟨9, 0⟩ ⟨3, 0⟩
      = [] :=
  (getStudySessionsByDateRange_contract _ ⟨9, 0⟩ ⟨3, 0⟩).2.2 (by decide)

/-- MemStorage.updateStudySession: merge on hit, "not found" on miss. -/
def updateStudySession (sessionsMap : List (Int × StudySession)) (id : Int)
    (sessionData : StudySessionPatch) :
    Option StudySession × List (Int × StudySession) :=
  match mapLookup sessionsMap id with
  | none => (none, sessionsMap)
  | some s =>
    let updatedSession := mergeStudySession s sessionData
    (some updatedSession, mapSet sessionsMap id updatedSession)

/-- First element of the session's tags, if any: the handler's
`tags && tags.length > 0 ? tags[0] : undefined`. -/
def firstTag : Option (List String) → Option String
  | some (t :: _) => some t
  | _ => none

/-- Arguments the PUT /api/study-sessions/:id handler passes on to
`increaseStudyTime`, if any. The source guard is
`updatedSession.completed && updatedSession.duration && updatedSession.duration > 0`:
it looks only at the UPDATED session (truthiness of `duration` is `≠ 0`). -/
def sessionTriggerArgs (updatedSession : StudySession) : Option (Int × Option String) :=
  match updatedSession.completed, updatedSession.duration with
  | true, some d => if d ≠ 0 ∧ 0 < d then some (d, firstTag updatedSession.tags) else none
  | _, _ => none

/-- The PUT /api/study-sessions/:id handler: update the session, then, when
the updated session is completed with positive duration, record the
`increaseStudyTime(duration, firstTag)` call it makes (third component). -/
def putStudySessionHandler (sessionsMap : List (Int × StudySession)) (id : Int)
    (sessionData : StudySessionPatch) :
    Option StudySession × List (Int × StudySession) × Option (Int × Option String) :=
  match updateStudySession sessionsMap id sessionData with
  | (none, m) => (none, m, none)
  | (some u, m) => (some u, m, sessionTriggerArgs u)

theorem sessionTriggerArgs_eq_some (u : StudySession) (d : Int) (c : Option String) :
    sessionTriggerArgs u = some (d, c) ↔
      u.completed = true ∧ u.duration = some d ∧ d ≠ 0 ∧ 0 < d ∧ c = firstTag u.tags := by
  cases hcb : u.completed with
  | false => simp [sessionTriggerArgs, hcb]
  | true =>
    cases hdur : u.duration with
    | none => simp [sessionTriggerArgs, hcb, hdur]
    | some d0 =>
      simp only [sessionTriggerArgs, hcb, hdur]
      by_cases h : d0 ≠ 0 ∧ 0 < d0
      · rw [if_pos h]
        constructor
        · intro hx
          injection hx with hx1
          injection hx1 with h1 h2
          subst h1
          exact ⟨trivial, rfl, h.1, h.2, h2.symm⟩
        · rintro ⟨-, hd0, -, -, rfl⟩
          injection hd0 with h1
          subst h1
          rfl
      · rw [if_neg h]
        constructor
        · intro hx
          exact Option.noConfusion hx
        · rintro ⟨-, hd0, hne, hpos, -⟩
          injection hd0 with h1
          subst h1
          exact absurd ⟨hne, hpos⟩ h

/-- A session that is already completed with positive duration. -/
def alreadyCompletedSession : StudySession :=
  { id := 1
    userId := none
    startTime := ⟨10, 0⟩
    endTime := none
    duration := some 1800
    timerType := "pomodoro"
    tags := some ["Math"]
    notes := none
    completed := true }

/-- Counterexample for C4: an update that does NOT transition the session to
completed (it was already completed, and the patch changes nothing) still
makes the handler call `increaseStudyTime`, so the call is not made exactly
on transitions to completed. -/
theorem putStudySession_trigger_without_transition :
    alreadyCompletedSession.completed = true ∧
    (putStudySessionHandler [(1, alreadyCompletedSession)] 1 emptyStudySessionPatch).2.2
      = some (1800, some "Math") :=
  ⟨rfl, by decide⟩

/-- A pending session awaiting completion, for the C4 scenario. -/
def pendingSession : StudySession :=
  { id := 1
    userId := none
    startTime := ⟨10, 0⟩
    endTime := none
    duration := some 1800
    timerType := "pomodoro"
    tags := some ["Math", "Review"]
    notes := none
    completed := false }

/-- Patch marking a session completed. -/
def completePatch : StudySessionPatch :=
  { emptyStudySessionPatch with completed := some true }

/-- C4 (amended): the PUT study-session handler calls
`increaseStudyTime(duration, c)` exactly when the UPDATED (post-merge) session
has `completed = true` and truthy positive `duration` — regardless of whether
the update transitioned `completed` from false — with `c` the first element of
the updated session's tags (no category when tags is absent or empty), one
category per call. Updating a pending session with duration 1800 and tags
["Math", "Review"] to completed triggers `increaseStudyTime(1800, "Math")`. -/
theorem putStudySession_trigger_characterization :
    (∀ (m : List (Int × StudySession)) (id : Int) (p : StudySessionPatch),
      mapLookup m id = none → (putStudySessionHandler m id p).2.2 = none) ∧
    (∀ (m : List (Int × StudySession)) (id : Int) (p : StudySessionPatch) (s : StudySession),
      mapLookup m id = some s →
      ∀ (d : Int) (c : Option String),
        ((putStudySessionHandler m id p).2.2 = some (d, c) ↔
          (mergeStudySession s p).completed = true ∧
          (mergeStudySession s p).duration = some d ∧ d ≠ 0 ∧ 0 < d ∧
          c = firstTag (mergeStudySession s p).tags)) ∧
    (putStudySessionHandler [(1, pendingSession)] 1 completePatch).2.2
      = some (1800, some "Math") := by
  refine ⟨?_, ?_, by decide⟩
  · intro m id p h
    simp [putStudySessionHandler, updateStudySession, h]
  · intro m id p s h d c
    simp only [putStudySessionHandler, updateStudySession, h]
    exact sessionTriggerArgs_eq_some (mergeStudySession s p) d c

/-- Witness for C4 (amended): a miss triggers no call. -/
theorem putStudySession_trigger_characterization_witness :
    (putStudySessionHandler [] 3 emptyStudySessionPatch).2.2 = none :=
  putStudySession_trigger_characterization.1 [] 3 emptyStudySessionPatch rfl

/-- The `timer_settings` row type (`shared/schema.ts`). `backgroundImage` and
`useCustomBackground` carry an extra `Option` layer because `MemStorage`
builds records that omit them altogether (`none` = field absent/undefined;
for `backgroundImage`, `some none` = null). -/
structure TimerSettings where
  id : Int
  userId : Option Int
  defaultMinutes : Int
  defaultSeconds : Int
  alarmSound : String
  volume : Int
  autoStartBreak : Bool
  timerMode : String
  pomodoroMinutes : Int
  shortBreakMinutes : Int
  longBreakMinutes : Int
  longBreakInterval : Int
  autoStartPomodoro : Bool
  trackStopwatchTime : Bool
  stopwatchDefaultCategory : Option String
  stopwatchAutoSave : Bool
  backgroundImage : Option (Option String)
  useCustomBackground : Option Bool
deriving DecidableEq

/-- Partial update object `Partial<InsertTimerSettings>` (every column except `id`). -/
structure TimerSettingsPatch where
  userId : Option (Option Int)
  defaultMinutes : Option Int
  defaultSeconds : Option Int
  alarmSound : Option String
  volume : Option Int
  autoStartBreak : Option Bool
  timerMode : Option String
  pomodoroMinutes : Option Int
  shortBreakMinutes : Option Int
  longBreakMinutes : Option Int
  longBreakInterval : Option Int
  autoStartPomodoro : Option Bool
  trackStopwatchTime : Option Bool
  stopwatchDefaultCategory : Option (Option String)
  stopwatchAutoSave : Option Bool
  backgroundImage : Option (Option String)
  useCustomBackground : Option Bool
deriving DecidableEq

def emptyTimerSettingsPatch : TimerSettingsPatch :=
  { userId := none, defaultMinutes := none, defaultSeconds := none, alarmSound := none,
    volume := none, autoStartBreak := none, timerMode := none, pomodoroMinutes := none,
    shortBreakMinutes := none, longBreakMinutes := none, longBreakInterval := none,
    autoStartPomodoro := none, trackStopwatchTime := none, stopwatchDefaultCategory := none,
    stopwatchAutoSave := none, backgroundImage := none, useCustomBackground := none }

/-- JS spread merge `{...settings0, ...settings}` for timer settings. A
supplied `backgroundImage`/`useCustomBackground` value makes the field
present; otherwise the (possibly absent) stored field is kept. -/
def mergeTimerSettings (t : TimerSettings) (p : TimerSettingsPatch) : TimerSettings :=
  { id := t.id
    userId := p.userId.getD t.userId
    defaultMinutes := p.defaultMinutes.getD t.defaultMinutes
    defaultSeconds := p.defaultSeconds.getD t.defaultSeconds
    alarmSound := p.alarmSound.getD t.alarmSound
    volume := p.volume.getD t.volume
    autoStartBreak := p.autoStartBreak.getD t.autoStartBreak
    timerMode := p.timerMode.getD t.timerMode
    pomodoroMinutes := p.pomodoroMinutes.getD t.pomodoroMinutes
    shortBreakMinutes := p.shortBreakMinutes.getD t.shortBreakMinutes
    longBreakMinutes := p.longBreakMinutes.getD t.longBreakMinutes
    longBreakInterval := p.longBreakInterval.getD t.longBreakInterval
    autoStartPomodoro := p.autoStartPomodoro.getD t.autoStartPomodoro
    trackStopwatchTime := p.trackStopwatchTime.getD t.trackStopwatchTime
    stopwatchDefaultCategory := p.stopwatchDefaultCategory.getD t.stopwatchDefaultCategory
    stopwatchAutoSave := p.stopwatchAutoSave.getD t.stopwatchAutoSave
    backgroundImage := match p.backgroundImage with
      | some v => some v
      | none => t.backgroundImage
    useCustomBackground := match p.useCustomBackground with
      | some v => some v
      | none => t.useCustomBackground }

/-- The `timerSettingsInstance` literal built in the MemStorage constructor.
It stops at `stopwatchAutoSave`: `backgroundImage` and `useCustomBackground`
are omitted. -/
def memConstructorTimerSettings : TimerSettings :=
  { id := 1
    userId := none
    defaultMinutes := 25
    defaultSeconds := 0
    alarmSound := "bell"
    volume := 80
    autoStartBreak := false
    timerMode := "pomodoro"
    pomodoroMinutes := 25
    shortBreakMinutes := 5
    longBreakMinutes := 15
    longBreakInterval := 4
    autoStartPomodoro := false
    trackStopwatchTime := true
    stopwatchDefaultCategory := some "General"
    stopwatchAutoSave := false
    backgroundImage := none
    useCustomBackground := none }

/-- The `defaultSettings` literal inside MemStorage.updateTimerSettings; it
also omits `backgroundImage` and `useCustomBackground`. -/
def memUpdateTimerSettingsDefaults : TimerSettings :=
  { id := 1
    userId := none
    defaultMinutes := 25
    defaultSeconds := 0
    alarmSound := "bell"
    volume := 80
    autoStartBreak := false
    timerMode := "pomodoro"
    pomodoroMinutes := 25
    shortBreakMinutes := 5
    longBreakMinutes := 15
    longBreakInterval := 4
    autoStartPomodoro := false
    trackStopwatchTime := true
    stopwatchDefaultCategory := some "General"
    stopwatchAutoSave := false
    backgroundImage := none
    useCustomBackground := none }

/-- MemStorage.getTimerSettings: returns the instance as is. -/
def memGetTimerSettings (inst : Option TimerSettings) : Option TimerSettings := inst

/-- MemStorage.getStudyStats: returns the instance as is. -/
def memGetStudyStats (inst : Option StudyStats) : Option StudyStats := inst

/-- MemStorage.updateTimerSettings: lazy create-with-defaults-then-merge if
absent, else merge in place; the result is also the new state. -/
def memUpdateTimerSettings (inst : Option TimerSettings) (p : TimerSettingsPatch) :
    TimerSettings :=
  match inst with
  | none => mergeTimerSettings memUpdateTimerSettingsDefaults p
  | some s => mergeTimerSettings s p

/-- The `timerSettingsInstance` state after a sequence of updateTimerSettings
calls, starting from the constructor state. -/
def runTimerUpdates (ps : List TimerSettingsPatch) : Option TimerSettings :=
  ps.foldl (fun st p => some (memUpdateTimerSettings st p)) (some memConstructorTimerSettings)

/-- The `studyStatsInstance` state after a sequence of updateStudyStats calls,
starting from the constructor state. -/
def runStudyStatsUpdates (ps : List StudyStatsPatch) : Option StudyStats :=
  ps.foldl (fun st p => some (memUpdateStudyStats st p)) (some memDefaultStudyStats)

/-- Counterexample for C6: before any update has been applied (the empty
update sequence), the MemStorage getters do NOT report the singleton records
absent — the constructor creates both eagerly. -/
theorem memSingleton_present_before_first_write :
    memGetTimerSettings (runTimerUpdates []) = some memConstructorTimerSettings ∧
    memGetStudyStats (runStudyStatsUpdates []) = some memDefaultStudyStats ∧
    memGetTimerSettings (runTimerUpdates []) ≠ none ∧
    memGetStudyStats (runStudyStatsUpdates []) ≠ none :=
  ⟨rfl, rfl, fun h => Option.noConfusion h, fun h => Option.noConfusion h⟩

theorem foldl_some_ne_none {α β : Type} (f : Option α → β → α) (ps : List β) (st : α) :
    ps.foldl (fun st p => some (f st p)) (some st) ≠ none := by
  induction ps generalizing st with
  | nil => simp
  | cons p rest ih => simpa using ih (f (some st) p)

/-- C6 (amended): the MemStorage constructor eagerly creates both singleton
records with the hard-coded defaults, so the getters never report them absent
(not even before the first write); `update(partial)` merges the supplied
fields into the existing record (the lazy create-with-defaults-then-merge
branch exists for the absent case); and the state holds at most one singleton
record of each kind per process. -/
theorem memSingleton_contract :
    (∀ ps : List TimerSettingsPatch, memGetTimerSettings (runTimerUpdates ps) ≠ none) ∧
    (∀ ps : List StudyStatsPatch, memGetStudyStats (runStudyStatsUpdates ps) ≠ none) ∧
    (∀ (ts : TimerSettings) (p : TimerSettingsPatch),
      memUpdateTimerSettings (some ts) p = mergeTimerSettings ts p) ∧
    (∀ p : TimerSettingsPatch,
      memUpdateTimerSettings none p = mergeTimerSettings memUpdateTimerSettingsDefaults p) ∧
    (∀ (s : StudyStats) (p : StudyStatsPatch),
      memUpdateStudyStats (some s) p = mergeStudyStats s p) ∧
    (∀ p : StudyStatsPatch,
      memUpdateStudyStats none p = mergeStudyStats memDefaultStudyStats p) ∧
    (∀ st : Option TimerSettings, st = none ∨ ∃! ts, st = some ts) ∧
    (∀ st : Option StudyStats, st = none ∨ ∃! s, st = some s) := by
  refine ⟨?_, ?_, fun _ _ => rfl, fun _ => rfl, fun _ _ => rfl, fun _ => rfl, ?_, ?_⟩
  · intro ps
    exact foldl_some_ne_none (fun st p => memUpdateTimerSettings st p) ps
      memConstructorTimerSettings
  · intro ps
    exact foldl_some_ne_none (fun st p => memUpdateStudyStats st p) ps memDefaultStudyStats
  · intro st
    cases st with
    | none => exact Or.inl rfl
    | some x => exact Or.inr ⟨x, rfl, fun y hy => (Option.some_inj.mp hy).symm⟩
  · intro st
    cases st with
    | none => exact Or.inl rfl
    | some x => exact Or.inr ⟨x, rfl, fun y hy => (Option.some_inj.mp hy).symm⟩

/-- Witness for C6 (amended) at a concrete update sequence. -/
theorem memSingleton_contract_witness :
    memGetTimerSettings (runTimerUpdates [emptyTimerSettingsPatch]) ≠ none :=
  memSingleton_contract.1 [emptyTimerSettingsPatch]

theorem memUpdateTimerSettings_background_step (st : Option TimerSettings)
    (p : TimerSettingsPatch)
    (hp : p.backgroundImage = none ∧ p.useCustomBackground = none)
    (hst : ∀ ts, st = some ts → ts.backgroundImage = none ∧ ts.useCustomBackground = none) :
    (memUpdateTimerSettings st p).backgroundImage = none ∧
    (memUpdateTimerSettings st p).useCustomBackground = none := by
  cases st with
  | none =>
    simp [memUpdateTimerSettings, mergeTimerSettings, memUpdateTimerSettingsDefaults,
      hp.1, hp.2]
  | some ts =>
    obtain ⟨h1, h2⟩ := hst ts rfl
    simp [memUpdateTimerSettings, mergeTimerSettings, hp.1, hp.2, h1, h2]

theorem runTimerUpdates_background_aux (ps : List TimerSettingsPatch)
    (h : ∀ p ∈ ps, p.backgroundImage = none ∧ p.useCustomBackground = none)
    (st : Option TimerSettings)
    (hst : ∀ ts, st = some ts → ts.backgroundImage = none ∧ ts.useCustomBackground = none) :
    ∀ ts, ps.foldl (fun st p => some (memUpdateTimerSettings st p)) st = some ts →
      ts.backgroundImage = none ∧ ts.useCustomBackground = none := by
  induction ps generalizing st with
  | nil =>
    intro ts hts
    exact hst ts hts
  | cons p rest ih =>
    intro ts hts
    simp only [List.foldl_cons] at hts
    refine ih (fun q hq => h q (List.mem_cons_of_mem p hq))
      (some (memUpdateTimerSettings st p)) ?_ ts hts
    intro ts' hts'
    obtain rfl := Option.some_inj.mp hts'
    exact memUpdateTimerSettings_background_step st p (h p (List.mem_cons_self p rest)) hst

/-- Dedicated patch for the C10 witness: sets only the volume. -/
def volumeOnlyPatch : TimerSettingsPatch := { emptyTimerSettingsPatch with volume := some 50 }

/-- C10: both MemStorage default timer-settings literals (the constructor
instance and the `updateTimerSettings` defaults) omit `backgroundImage` and
`useCustomBackground`, so after any update sequence that never supplies those
two fields, `getTimerSettings` returns a record in which `useCustomBackground`
is absent/undefined — not the schema default `false` — and `backgroundImage`
is absent/undefined — not the schema default null. -/
theorem timerSettings_background_fields_absent (ps : List TimerSettingsPatch)
    (h : ∀ p ∈ ps, p.backgroundImage = none ∧ p.useCustomBackground = none) :
    memConstructorTimerSettings.backgroundImage = none ∧
    memConstructorTimerSettings.useCustomBackground = none ∧
    memUpdateTimerSettingsDefaults.backgroundImage = none ∧
    memUpdateTimerSettingsDefaults.useCustomBackground = none ∧
    ∀ ts, memGetTimerSettings (runTimerUpdates ps) = some ts →
      ts.backgroundImage = none ∧ ts.backgroundImage ≠ some none ∧
      ts.useCustomBackground = none ∧ ts.useCustomBackground ≠ some false := by
  refine ⟨rfl, rfl, rfl, rfl, ?_⟩
  intro ts hts
  obtain ⟨h1, h2⟩ := runTimerUpdates_background_aux ps h (some memConstructorTimerSettings)
    (fun ts' hts' => by obtain rfl := Option.some_inj.mp hts'; exact ⟨rfl, rfl⟩) ts hts
  exact ⟨h1, by simp [h1], h2, by simp [h2]⟩

/-- Witness for C10 at a concrete update sequence. -/
theorem timerSettings_background_fields_absent_witness :
    (mergeTimerSettings memConstructorTimerSettings volumeOnlyPatch).backgroundImage = none ∧
    (mergeTimerSettings memConstructorTimerSettings volumeOnlyPatch).useCustomBackground
      ≠ some false :=
  ⟨((timerSettings_background_fields_absent [volumeOnlyPatch] (by decide)).2.2.2.2
      (mergeTimerSettings memConstructorTimerSettings volumeOnlyPatch) rfl).1,
   ((timerSettings_background_fields_absent [volumeOnlyPatch] (by decide)).2.2.2.2
      (mergeTimerSettings memConstructorTimerSettings volumeOnlyPatch) rfl).2.2.2⟩
